import Mathlib

/-!
Shallow embedding of the student-management CRUD application (`src/app.py`).

Strings from the UI (names, emails, ...) are modelled as `List Char`; the
SQLite table is a `DB` state holding the rows and the AUTOINCREMENT
high-water mark `seq`.  Each storage function takes an extra
`exc : Option String` fault parameter: `some e` means the underlying
`cursor.execute` raises an exception with message `e`, `none` means the
storage engine does not fail.  Every operation returns an `OpResult`
packing the Python return value, the resulting table state, and the list
of Streamlit messages (`st.success` / `st.error` / `st.info`) emitted
during the call, in order.
-/

/-- One row of the `students` table (`id`, `name`, `email`, `phone`, `age`,
`created_at`). -/
structure Student where
  id : Nat
  name : List Char
  email : List Char
  phone : List Char
  age : Int
  created_at : Nat
deriving DecidableEq

/-- The persistent state: the rows of the `students` table in insertion
order, plus the AUTOINCREMENT counter (every id ever assigned is `≤ seq`). -/
structure DB where
  rows : List Student
  seq : Nat
deriving DecidableEq

/-- A Streamlit message emitted during an operation. -/
inductive Msg where
  | success : String → Msg
  | error : String → Msg
  | info : String → Msg
  | warning : String → Msg
deriving DecidableEq

/-- Result of one storage call: the Python return value, the table state
after the call, and the messages displayed. -/
structure OpResult (α : Type) where
  val : α
  db : DB
  msgs : List Msg
deriving DecidableEq

/-- The tuple shape returned by `SELECT id, name, email, phone, age`. -/
abbrev StudentRecord := Nat × List Char × List Char × List Char × Int

/-- Projection of a row to the columns selected by the read queries. -/
def projRecord (r : Student) : StudentRecord := (r.id, r.name, r.email, r.phone, r.age)

/-- `insert_student(name, email, phone, age)` (app.py lines 39-57): INSERT a
new row; `id` is assigned by AUTOINCREMENT (`seq + 1`) and `created_at` by
`CURRENT_TIMESTAMP` (the parameter `now`).  Returns `True` with a success
message, or `False` with an error message when the statement raises. -/
def insert_student (name email phone : List Char) (age : Int) (now : Nat) (db : DB) (exc : Option String) : OpResult Bool :=
  match exc with
  | some e => { val := false, db := db, msgs := [Msg.error ("❌ Error adding student: " ++ e)] }
  | none =>
    { val := true
      db := { rows := db.rows ++
                [{ id := db.seq + 1, name := name, email := email, phone := phone,
                   age := age, created_at := now }]
              seq := db.seq + 1 }
      msgs := [Msg.success "✅ Student added successfully!"] }

/-- `view_all_students()` (app.py lines 60-78): SELECT all rows; returns the
records (as a DataFrame) when non-empty, `None` when the table is empty, and
`None` with an error message when the statement raises. -/
def view_all_students (db : DB) (exc : Option String) : OpResult (Option (List StudentRecord)) :=
  match exc with
  | some e => { val := none, db := db, msgs := [Msg.error ("❌ Error retrieving records: " ++ e)] }
  | none =>
    let records := db.rows.map projRecord
    if records.isEmpty then { val := none, db := db, msgs := [] }
    else { val := some records, db := db, msgs := [] }

/-- `get_student_by_id(student_id)` (app.py lines 81-94): SELECT ... WHERE
`id = ?` and `fetchone()`; returns the first matching row or `None`, and
`None` with an error message when the statement raises. -/
def get_student_by_id (sid : Nat) (db : DB) (exc : Option String) : OpResult (Option StudentRecord) :=
  match exc with
  | some e => { val := none, db := db, msgs := [Msg.error ("❌ Error retrieving student: " ++ e)] }
  | none => { val := (db.rows.find? (fun r => r.id == sid)).map projRecord, db := db, msgs := [] }

/-- Byte-wise lexicographic order on text, SQLite's default BINARY collation
used by `ORDER BY name`. -/
def lexLe : List Char → List Char → Bool
  | [], _ => true
  | _ :: _, [] => false
  | a :: as, b :: bs =>
    if a.toNat < b.toNat then true
    else if b.toNat < a.toNat then false
    else lexLe as bs

/-- Comparison of two rows by `name`, as performed by `ORDER BY name`. -/
def nameLe (x y : Student) : Prop := lexLe x.name y.name = true

instance : DecidableRel nameLe :=
  fun x y => inferInstanceAs (Decidable (lexLe x.name y.name = true))

lemma lexLe_cons_iff (a b : Char) (as bs : List Char) :
    lexLe (a :: as) (b :: bs) = true ↔
      a.toNat < b.toNat ∨ (a.toNat = b.toNat ∧ lexLe as bs = true) := by
  rw [lexLe]
  rcases Nat.lt_trichotomy a.toNat b.toNat with h | h | h
  · simp [h]
  · simp [h]
  · simp [h, Nat.lt_asymm h, show ¬ a.toNat = b.toNat by omega]

lemma lexLe_total : ∀ a b : List Char, lexLe a b = true ∨ lexLe b a = true
  | [], _ => Or.inl rfl
  | _ :: _, [] => Or.inr rfl
  | a :: as, b :: bs => by
    rw [lexLe_cons_iff, lexLe_cons_iff]
    rcases Nat.lt_trichotomy a.toNat b.toNat with h | h | h
    · exact Or.inl (Or.inl h)
    · rcases lexLe_total as bs with ih | ih
      · exact Or.inl (Or.inr ⟨h, ih⟩)
      · exact Or.inr (Or.inr ⟨h.symm, ih⟩)
    · exact Or.inr (Or.inl h)

lemma lexLe_trans : ∀ a b c : List Char,
    lexLe a b = true → lexLe b c = true → lexLe a c = true
  | [], _, _, _, _ => rfl
  | _ :: _, [], _, hab, _ => by simp [lexLe] at hab
  | _ :: _, _ :: _, [], _, hbc => by simp [lexLe] at hbc
  | a :: as, b :: bs, c :: cs, hab, hbc => by
    rw [lexLe_cons_iff] at hab hbc ⊢
    rcases hab with h | ⟨h, hab2⟩ <;> rcases hbc with h' | ⟨h', hbc2⟩
    · exact Or.inl (by omega)
    · exact Or.inl (by omega)
    · exact Or.inl (by omega)
    · exact Or.inr ⟨by omega, lexLe_trans as bs cs hab2 hbc2⟩

instance : IsTotal Student nameLe := ⟨fun x y => lexLe_total x.name y.name⟩

instance : IsTrans Student nameLe := ⟨fun x y z => lexLe_trans x.name y.name z.name⟩

/-- `get_all_student_ids()` (app.py lines 97-110): SELECT `id, name` ORDER BY
`name`; returns the `(id, name)` pairs sorted by name, or `[]` with an error
message when the statement raises. -/
def get_all_student_ids (db : DB) (exc : Option String) : OpResult (List (Nat × List Char)) :=
  match exc with
  | some e => { val := [], db := db, msgs := [Msg.error ("❌ Error retrieving student list: " ++ e)] }
  | none =>
    { val := (List.insertionSort nameLe db.rows).map (fun r => (r.id, r.name))
      db := db, msgs := [] }

/-- `update_student(student_id, name, email, phone, age)` (app.py lines
113-132): UPDATE the four mutable columns of every row WHERE `id = ?`;
returns `True` with a success message even when zero rows match, or `False`
with an error message when the statement raises. -/
def update_student (sid : Nat) (name email phone : List Char) (age : Int) (db : DB) (exc : Option String) : OpResult Bool :=
  match exc with
  | some e => { val := false, db := db, msgs := [Msg.error ("❌ Error updating student: " ++ e)] }
  | none =>
    { val := true
      db := { db with rows := db.rows.map (fun r =>
                if r.id = sid then
                  { r with name := name, email := email, phone := phone, age := age }
                else r) }
      msgs := [Msg.success "✅ Student updated successfully!"] }

/-- `delete_student(student_id)` (app.py lines 135-149): DELETE FROM students
WHERE `id = ?`; returns `True` with a success message even when zero rows
match, or `False` with an error message when the statement raises. -/
def delete_student (sid : Nat) (db : DB) (exc : Option String) : OpResult Bool :=
  match exc with
  | some e => { val := false, db := db, msgs := [Msg.error ("❌ Error deleting student: " ++ e)] }
  | none =>
    { val := true
      db := { db with rows := db.rows.filter (fun r => r.id != sid) }
      msgs := [Msg.success "✅ Student deleted successfully!"] }

/-- Outcome of submitting the Add Student form (app.py lines 203-207):
whether a storage call was made, the resulting table, and the messages. -/
structure FormOutcome where
  storageCalled : Bool
  db : DB
  msgs : List Msg
deriving DecidableEq

/-- Python truthiness of a text field: non-empty. -/
def truthyText (s : List Char) : Bool := !s.isEmpty

/-- Python truthiness of the `age` number: non-zero. -/
def truthyInt (n : Int) : Bool := n != 0

/-- The Add Student submit handler (app.py lines 203-207): `if name and
email and phone and age:` call `insert_student`, else display a validation
error and make no storage call. -/
def addSubmit (name email phone : List Char) (age : Int) (now : Nat) (db : DB) (exc : Option String) : FormOutcome :=
  if truthyText name && truthyText email && truthyText phone && truthyInt age then
    let r := insert_student name email phone age now db exc
    { storageCalled := true, db := r.db, msgs := r.msgs }
  else
    { storageCalled := false, db := db, msgs := [Msg.error "❌ Please fill in all fields!"] }

/-- What the Update/Delete views render before any form (app.py lines
216-218 and 255-257): the list returned by `get_all_student_ids`, whether
the selector is presented (`if students:`), and the messages shown. -/
structure SelectorView where
  students : List (Nat × List Char)
  selectorShown : Bool
  msgs : List Msg
deriving DecidableEq

/-- The selector-population prefix shared by the Update and Delete views. -/
def selectStudentView (db : DB) (exc : Option String) : SelectorView :=
  let r := get_all_student_ids db exc
  if r.val.isEmpty then
    { students := r.val, selectorShown := false
      msgs := r.msgs ++ [Msg.info "📭 No students found. Please add a student first."] }
  else
    { students := r.val, selectorShown := true, msgs := r.msgs }

/-- Fuel-driven digit expansion; `fuel > n` always suffices since the
argument shrinks by a factor of ten each step. -/
def natReprAux : Nat → Nat → List Char
  | 0, _ => []
  | fuel + 1, n =>
    if n < 10 then [Nat.digitChar n]
    else natReprAux fuel (n / 10) ++ [Nat.digitChar (n % 10)]

/-- Decimal digits of a natural number, as Python's `str` renders them. -/
def natRepr (n : Nat) : List Char := natReprAux (n + 1) n

/-- Python `str` of an integer: optional leading minus sign, then digits. -/
def intRepr (i : Int) : List Char :=
  if i < 0 then '-' :: natRepr i.natAbs else natRepr i.toNat

/-- The separator `" - "` of the selector display string. -/
def sepIdName : List Char := [' ', '-', ' ']

/-- The selector display string `f"{student[0]} - {student[1]}"` (app.py
lines 220 and 259). -/
def mkSelectorOption (sid : Int) (name : List Char) : List Char :=
  intRepr sid ++ sepIdName ++ name

/-- The text before the first occurrence of `sep` (the whole string when
`sep` does not occur): `selected.split(sep)[0]` in Python. -/
def splitFirst (sep : List Char) : List Char → List Char
  | [] => []
  | c :: rest => if sep.isPrefixOf (c :: rest) then [] else c :: splitFirst sep rest

/-- Accumulator pass of Python `int()` over decimal digits; `none` on any
non-digit character. -/
def parseNatAux (acc : Nat) : List Char → Option Nat
  | [] => some acc
  | c :: cs => if c.isDigit then parseNatAux (acc * 10 + (c.toNat - 48)) cs else none

/-- Python `int(s)` on a sign-and-digits string: optional leading minus,
then at least one digit; raises (`none`) otherwise. -/
def parseInt (s : List Char) : Option Int :=
  match s with
  | [] => none
  | c :: cs =>
    if c = '-' then
      if cs.isEmpty then none
      else (parseNatAux 0 cs).map (fun n : Nat => -(n : Int))
    else (parseNatAux 0 (c :: cs)).map (fun n : Nat => (n : Int))

/-- `int(selected.split(" - ")[0])` (app.py lines 224 and 263): recover the
id from a selector display string. -/
def extractSelectedId (s : List Char) : Option Int := parseInt (splitFirst sepIdName s)

example : natRepr 305 = ['3', '0', '5'] := by decide
example : intRepr (-41) = ['-', '4', '1'] := by decide
example : extractSelectedId (mkSelectorOption 12 ['B', 'o', 'b']) = some 12 := by decide
example : extractSelectedId (mkSelectorOption 7 ['a', ' ', '-', ' ', 'b']) = some 7 := by decide

/-! Concrete states used by the witnesses. -/

def dbEmpty : DB := { rows := [], seq := 0 }

def studentA : Student :=
  { id := 1, name := ['A', 'd', 'a'], email := ['a', '@', 'x'], phone := ['5', '5', '5'],
    age := 36, created_at := 10 }

def studentB : Student :=
  { id := 2, name := ['B', 'o', 'b'], email := ['b', '@', 'x'], phone := ['5', '5', '6'],
    age := 21, created_at := 11 }

def dbTwo : DB := { rows := [studentA, studentB], seq := 2 }

/-! Helper lemmas. -/

lemma mem_map_id_of_mem {rows : List Student} {r : Student} {sid : Nat}
    (hr : r ∈ rows) (he : r.id = sid) : sid ∈ rows.map Student.id :=
  List.mem_map.mpr ⟨r, hr, he⟩

lemma map_update_of_not_mem (rows : List Student) (sid : Nat)
    (name email phone : List Char) (age : Int)
    (h : ∀ r ∈ rows, r.id ≠ sid) :
    rows.map (fun r =>
      if r.id = sid then
        { r with name := name, email := email, phone := phone, age := age }
      else r) = rows := by
  induction rows with
  | nil => rfl
  | cons a t ih =>
    simp only [List.map_cons, if_neg (h a (List.mem_cons_self a t)),
      ih (fun r hr => h r (List.mem_cons_of_mem a hr))]

/-- C2: for every id absent from the students table, `update_student` leaves
the table unchanged and still returns `True`, and `delete_student` likewise
leaves the table unchanged and returns `True`. -/
theorem update_delete_missing_id_noop (db : DB) (sid : Nat)
    (name email phone : List Char) (age : Int)
    (h : sid ∉ db.rows.map Student.id) :
    (update_student sid name email phone age db none).db = db ∧
    (update_student sid name email phone age db none).val = true ∧
    (delete_student sid db none).db = db ∧
    (delete_student sid db none).val = true := by
  have h' : ∀ r ∈ db.rows, r.id ≠ sid := fun r hr he => h (mem_map_id_of_mem hr he)
  refine ⟨?_, rfl, ?_, rfl⟩
  · simp only [update_student,
      map_update_of_not_mem db.rows sid name email phone age h']
  · simp only [delete_student]
    rw [List.filter_eq_self.mpr]
    intro r hr
    simp [h' r hr]

theorem update_delete_missing_id_noop_witness :
    (7 ∉ dbTwo.rows.map Student.id) ∧
    ((update_student 7 ['N'] ['e'] ['p'] 30 dbTwo none).db = dbTwo ∧
     (update_student 7 ['N'] ['e'] ['p'] 30 dbTwo none).val = true ∧
     (delete_student 7 dbTwo none).db = dbTwo ∧
     (delete_student 7 dbTwo none).val = true) :=
  ⟨by decide, update_delete_missing_id_noop dbTwo 7 ['N'] ['e'] ['p'] 30 (by decide)⟩

/-- C9: for every id not present in the students table, `get_student_by_id`
returns not-found (`None`) with no error message, and the table is
unchanged by the call. -/
theorem getById_missing_not_found (db : DB) (sid : Nat)
    (h : sid ∉ db.rows.map Student.id) :
    (get_student_by_id sid db none).val = none ∧
    (get_student_by_id sid db none).db = db ∧
    (get_student_by_id sid db none).msgs = [] := by
  have h' : ∀ r ∈ db.rows, r.id ≠ sid := fun r hr he => h (mem_map_id_of_mem hr he)
  refine ⟨?_, rfl, rfl⟩
  simp only [get_student_by_id, Option.map_eq_none', List.find?_eq_none]
  intro r hr
  simp [h' r hr]

theorem getById_missing_not_found_witness :
    (7 ∉ dbTwo.rows.map Student.id) ∧
    ((get_student_by_id 7 dbTwo none).val = none ∧
     (get_student_by_id 7 dbTwo none).db = dbTwo ∧
     (get_student_by_id 7 dbTwo none).msgs = []) :=
  ⟨by decide, getById_missing_not_found dbTwo 7 (by decide)⟩

/-- C1 counterexample: on the empty table, `view_all_students` returns the
very same value (`None`) whether the storage succeeds on an empty table or
raises, and `get_student_by_id 1` likewise returns `None` in both the
not-found and the error case — the returned values do not differ. -/
theorem error_vs_empty_same_value :
    (view_all_students dbEmpty none).val = (view_all_students dbEmpty (some "boom")).val ∧
    (get_student_by_id 1 dbEmpty none).val = (get_student_by_id 1 dbEmpty (some "boom")).val :=
  ⟨rfl, rfl⟩

/-- C1 amended: the Python return value is `None` both on the
empty/not-found success path and on the error path; the two outcomes are
distinguished not by the return value but by the displayed messages — the
error path emits an error message while the success path emits none — so
the full outcomes (value together with messages) differ. -/
theorem error_messaged_distinct_from_empty (dbA dbB : DB) (e : String) (sid : Nat)
    (hA : dbA.rows = []) (hB : sid ∉ dbB.rows.map Student.id) :
    (view_all_students dbA none).val = none ∧
    (view_all_students dbA (some e)).val = none ∧
    (view_all_students dbA none).msgs = [] ∧
    (view_all_students dbA (some e)).msgs = [Msg.error ("❌ Error retrieving records: " ++ e)] ∧
    view_all_students dbA none ≠ view_all_students dbA (some e) ∧
    (get_student_by_id sid dbB none).val = none ∧
    (get_student_by_id sid dbB (some e)).val = none ∧
    (get_student_by_id sid dbB none).msgs = [] ∧
    (get_student_by_id sid dbB (some e)).msgs = [Msg.error ("❌ Error retrieving student: " ++ e)] ∧
    get_student_by_id sid dbB none ≠ get_student_by_id sid dbB (some e) := by
  have hview : (view_all_students dbA none).msgs = [] := by
    simp [view_all_students, hA]
  have hget : (get_student_by_id sid dbB none).msgs = [] := rfl
  refine ⟨by simp [view_all_students, hA], rfl, hview, rfl, ?_,
    (getById_missing_not_found dbB sid hB).1, rfl, hget, rfl, ?_⟩
  · intro heq
    have := congrArg OpResult.msgs heq
    rw [hview] at this
    exact List.noConfusion this
  · intro heq
    have := congrArg OpResult.msgs heq
    rw [hget] at this
    exact List.noConfusion this

theorem error_messaged_distinct_from_empty_witness :
    (dbEmpty.rows = [] ∧ 7 ∉ dbTwo.rows.map Student.id) ∧
    ((view_all_students dbEmpty none).val = none ∧
     (view_all_students dbEmpty (some "boom")).val = none ∧
     (view_all_students dbEmpty none).msgs = [] ∧
     (view_all_students dbEmpty (some "boom")).msgs = [Msg.error ("❌ Error retrieving records: " ++ "boom")] ∧
     view_all_students dbEmpty none ≠ view_all_students dbEmpty (some "boom") ∧
     (get_student_by_id 7 dbTwo none).val = none ∧
     (get_student_by_id 7 dbTwo (some "boom")).val = none ∧
     (get_student_by_id 7 dbTwo none).msgs = [] ∧
     (get_student_by_id 7 dbTwo (some "boom")).msgs = [Msg.error ("❌ Error retrieving student: " ++ "boom")] ∧
     get_student_by_id 7 dbTwo none ≠ get_student_by_id 7 dbTwo (some "boom")) :=
  ⟨⟨by decide, by decide⟩,
    error_messaged_distinct_from_empty dbEmpty dbTwo "boom" 7 (by decide) (by decide)⟩

/-- C10: `get_all_student_ids` returns the empty list both when the table is
empty and when the storage raises, so the Update/Delete views render the
same "no students found" empty-state in both cases and never present a
selector after a storage failure. -/
theorem selector_empty_state_on_empty_or_error (db : DB) (e : String)
    (hrows : db.rows = []) :
    (get_all_student_ids db none).val = [] ∧
    (get_all_student_ids db (some e)).val = [] ∧
    (get_all_student_ids db none).val = (get_all_student_ids db (some e)).val ∧
    (selectStudentView db none).selectorShown = false ∧
    Msg.info "📭 No students found. Please add a student first." ∈ (selectStudentView db none).msgs ∧
    (selectStudentView db (some e)).selectorShown = false ∧
    Msg.info "📭 No students found. Please add a student first." ∈ (selectStudentView db (some e)).msgs ∧
    (∀ db2 : DB, (selectStudentView db2 (some e)).selectorShown = false) := by
  have hval : (get_all_student_ids db none).val = [] := by
    simp [get_all_student_ids, hrows, List.insertionSort]
  refine ⟨hval, rfl, by rw [hval]; rfl, ?_, ?_, ?_, ?_, fun db2 => ?_⟩
  · simp [selectStudentView, hval]
  · simp [selectStudentView, hval]
  · simp [selectStudentView, get_all_student_ids]
  · simp [selectStudentView, get_all_student_ids]
  · simp [selectStudentView, get_all_student_ids]

theorem selector_empty_state_on_empty_or_error_witness :
    (dbEmpty.rows = []) ∧
    ((get_all_student_ids dbEmpty none).val = [] ∧
     (get_all_student_ids dbEmpty (some "boom")).val = [] ∧
     (get_all_student_ids dbEmpty none).val = (get_all_student_ids dbEmpty (some "boom")).val ∧
     (selectStudentView dbEmpty none).selectorShown = false ∧
     Msg.info "📭 No students found. Please add a student first." ∈ (selectStudentView dbEmpty none).msgs ∧
     (selectStudentView dbEmpty (some "boom")).selectorShown = false ∧
     Msg.info "📭 No students found. Please add a student first." ∈ (selectStudentView dbEmpty (some "boom")).msgs ∧
     (∀ db2 : DB, (selectStudentView db2 (some "boom")).selectorShown = false)) :=
  ⟨rfl, selector_empty_state_on_empty_or_error dbEmpty "boom" rfl⟩

/-- C7: on submitting the Add Student form (whose age widget guarantees
`1 ≤ age`), `insert_student` is called if and only if all of name, email
and phone are non-empty (age, being at least 1, is always truthy and never
null); otherwise a validation error is displayed and no storage call is
made, leaving the table unchanged. -/
theorem addSubmit_presence_validation (name email phone : List Char) (age : Int)
    (now : Nat) (db : DB) (exc : Option String) (hage : 1 ≤ age) :
    ((addSubmit name email phone age now db exc).storageCalled = true ↔
      (name ≠ [] ∧ email ≠ [] ∧ phone ≠ [])) ∧
    ((addSubmit name email phone age now db exc).storageCalled = false →
      (addSubmit name email phone age now db exc).db = db ∧
      (addSubmit name email phone age now db exc).msgs =
        [Msg.error "❌ Please fill in all fields!"]) := by
  have hage0 : age ≠ 0 := by omega
  have hcond : (truthyText name && truthyText email && truthyText phone && truthyInt age) = true ↔
      (name ≠ [] ∧ email ≠ [] ∧ phone ≠ []) := by
    simp [truthyText, truthyInt, hage0, and_assoc]
  simp only [addSubmit]
  split
  case isTrue hc =>
    exact ⟨by simpa using hcond.mp hc, by simp⟩
  case isFalse hc =>
    refine ⟨?_, fun _ => ⟨rfl, rfl⟩⟩
    simp only [Bool.false_eq_true, false_iff]
    intro hp
    exact hc (hcond.mpr hp)

theorem addSubmit_presence_validation_witness :
    ((1 : Int) ≤ 36) ∧
    (((addSubmit ['A'] ['e'] ['p'] 36 10 dbEmpty none).storageCalled = true ↔
       ((['A'] : List Char) ≠ [] ∧ (['e'] : List Char) ≠ [] ∧ (['p'] : List Char) ≠ [])) ∧
     ((addSubmit ['A'] ['e'] ['p'] 36 10 dbEmpty none).storageCalled = false →
       (addSubmit ['A'] ['e'] ['p'] 36 10 dbEmpty none).db = dbEmpty ∧
       (addSubmit ['A'] ['e'] ['p'] 36 10 dbEmpty none).msgs =
         [Msg.error "❌ Please fill in all fields!"])) :=
  ⟨by decide, addSubmit_presence_validation ['A'] ['e'] ['p'] 36 10 dbEmpty none (by decide)⟩

/-- C8: `get_all_student_ids` returns exactly the `(id, name)` pairs of the
rows of the students table (as a permutation of their projection), ordered
by name ascending, and the call leaves the table unchanged. -/
theorem listIdAndName_sorted_pairs (db : DB) :
    ((get_all_student_ids db none).val).Perm (db.rows.map (fun r => (r.id, r.name))) ∧
    ((get_all_student_ids db none).val).Pairwise (fun p q : Nat × List Char => lexLe p.2 q.2 = true) ∧
    (get_all_student_ids db none).db = db ∧
    (get_all_student_ids db none).msgs = [] := by
  refine ⟨?_, ?_, rfl, rfl⟩
  · exact (List.perm_insertionSort nameLe db.rows).map (fun r => (r.id, r.name))
  · have hs : List.Pairwise nameLe (List.insertionSort nameLe db.rows) :=
      List.sorted_insertionSort nameLe db.rows
    exact List.Pairwise.map (fun r : Student => (r.id, r.name)) (fun a b h => h) hs

lemma view_all_val_getD (db : DB) :
    ((view_all_students db none).val).getD [] = db.rows.map projRecord := by
  simp only [view_all_students]
  by_cases h : (db.rows.map projRecord).isEmpty
  · simp only [if_pos h, Option.getD_none]
    rw [List.isEmpty_iff] at h
    exact h.symm
  · simp only [if_neg h, Option.getD_some]

/-- C3: when the storage does not fail, `insert_student` with all four
fields returns `True`, assigns the fresh id `seq + 1` distinct from every
id already in the table, and a subsequent `view_all_students` yields a
record list containing a row with that id and exactly those field values
(and no other row with that id). -/
theorem insert_new_unique_id_and_listed (db : DB) (name email phone : List Char)
    (age : Int) (now : Nat)
    (hinv : ∀ r ∈ db.rows, r.id ≤ db.seq) :
    (insert_student name email phone age now db none).val = true ∧
    (∀ r ∈ db.rows, r.id ≠ db.seq + 1) ∧
    (∃ l, (view_all_students (insert_student name email phone age now db none).db none).val = some l ∧
      (db.seq + 1, name, email, phone, age) ∈ l ∧
      ∀ rec ∈ l, rec.1 = db.seq + 1 → rec = (db.seq + 1, name, email, phone, age)) := by
  refine ⟨rfl, fun r hr he => by have := hinv r hr; omega, ?_⟩
  have hrows : (insert_student name email phone age now db none).db.rows =
      db.rows ++ [{ id := db.seq + 1, name := name, email := email, phone := phone,
                    age := age, created_at := now }] := rfl
  refine ⟨(insert_student name email phone age now db none).db.rows.map projRecord, ?_, ?_, ?_⟩
  · simp only [view_all_students]
    rw [if_neg]
    simp [hrows, List.isEmpty_iff]
  · rw [hrows]
    exact List.mem_map.mpr ⟨_, List.mem_append_right _ (List.mem_singleton.mpr rfl), rfl⟩
  · intro rec hrec h1
    rcases List.mem_map.mp hrec with ⟨r, hr, hproj⟩
    rw [hrows] at hr
    rcases List.mem_append.mp hr with hrl | hrl
    · exfalso
      have hle := hinv r hrl
      have : rec.1 = r.id := by rw [← hproj]; rfl
      omega
    · rw [List.mem_singleton.mp hrl] at hproj
      exact hproj.symm.trans rfl

theorem insert_new_unique_id_and_listed_witness :
    (∀ r ∈ dbTwo.rows, r.id ≤ dbTwo.seq) ∧
    ((insert_student ['C'] ['c'] ['7'] 25 12 dbTwo none).val = true ∧
     (∀ r ∈ dbTwo.rows, r.id ≠ dbTwo.seq + 1) ∧
     (∃ l, (view_all_students (insert_student ['C'] ['c'] ['7'] 25 12 dbTwo none).db none).val = some l ∧
       (dbTwo.seq + 1, ['C'], ['c'], ['7'], (25 : Int)) ∈ l ∧
       ∀ rec ∈ l, rec.1 = dbTwo.seq + 1 → rec = (dbTwo.seq + 1, ['C'], ['c'], ['7'], (25 : Int)))) :=
  ⟨by decide, insert_new_unique_id_and_listed dbTwo ['C'] ['c'] ['7'] 25 12 (by decide)⟩

/-- C5: `delete_student` on a present id removes exactly the rows bearing
that id: the table afterwards contains no row with that id, every other row
is still present, a subsequent `view_all_students` record list excludes the
id, and a subsequent `get_student_by_id` returns not-found. -/
theorem delete_existing_removes_exactly (db : DB) (sid : Nat)
    (_hmem : sid ∈ db.rows.map Student.id) :
    (delete_student sid db none).val = true ∧
    (∀ r ∈ (delete_student sid db none).db.rows, r.id ≠ sid) ∧
    (∀ r ∈ db.rows, r.id ≠ sid → r ∈ (delete_student sid db none).db.rows) ∧
    (∀ rec ∈ ((view_all_students (delete_student sid db none).db none).val).getD [],
       rec.1 ≠ sid) ∧
    (get_student_by_id sid (delete_student sid db none).db none).val = none := by
  have hrows : (delete_student sid db none).db.rows =
      db.rows.filter (fun r => r.id != sid) := rfl
  have hno : ∀ r ∈ (delete_student sid db none).db.rows, r.id ≠ sid := by
    intro r hr
    rw [hrows] at hr
    have := (List.mem_filter.mp hr).2
    simpa using this
  refine ⟨rfl, hno, ?_, ?_, ?_⟩
  · intro r hr hne
    rw [hrows]
    exact List.mem_filter.mpr ⟨hr, by simpa using hne⟩
  · intro rec hrec
    rw [view_all_val_getD] at hrec
    rcases List.mem_map.mp hrec with ⟨r, hr, hproj⟩
    have : rec.1 = r.id := by rw [← hproj]; rfl
    rw [this]
    exact hno r hr
  · simp only [get_student_by_id, Option.map_eq_none', List.find?_eq_none]
    intro r hr
    simp [hno r hr]

theorem delete_existing_removes_exactly_witness :
    (1 ∈ dbTwo.rows.map Student.id) ∧
    ((delete_student 1 dbTwo none).val = true ∧
     (∀ r ∈ (delete_student 1 dbTwo none).db.rows, r.id ≠ 1) ∧
     (∀ r ∈ dbTwo.rows, r.id ≠ 1 → r ∈ (delete_student 1 dbTwo none).db.rows) ∧
     (∀ rec ∈ ((view_all_students (delete_student 1 dbTwo none).db none).val).getD [],
        rec.1 ≠ 1) ∧
     (get_student_by_id 1 (delete_student 1 dbTwo none).db none).val = none) :=
  ⟨by decide, delete_existing_removes_exactly dbTwo 1 (by decide)⟩

lemma find?_after_update (rows : List Student) (sid : Nat)
    (name email phone : List Char) (age : Int)
    (hmem : sid ∈ rows.map Student.id) :
    ∃ r, (rows.map (fun r =>
        if r.id = sid then
          { r with name := name, email := email, phone := phone, age := age }
        else r)).find? (fun r => r.id == sid) = some r ∧
      r.id = sid ∧ r.name = name ∧ r.email = email ∧ r.phone = phone ∧ r.age = age := by
  induction rows with
  | nil => simp at hmem
  | cons a t ih =>
    by_cases h : a.id = sid
    · refine ⟨{ a with name := name, email := email, phone := phone, age := age }, ?_, h, rfl, rfl, rfl, rfl⟩
      rw [List.map_cons, if_pos h]
      exact List.find?_cons_of_pos _ (by simpa using h)
    · have hmem' : sid ∈ t.map Student.id := by
        rcases List.mem_map.mp hmem with ⟨r, hr, he⟩
        rcases List.mem_cons.mp hr with rfl | hrt
        · exact absurd he h
        · exact List.mem_map.mpr ⟨r, hrt, he⟩
      rcases ih hmem' with ⟨r, hfind, hprops⟩
      refine ⟨r, ?_, hprops⟩
      rw [List.map_cons, if_neg h]
      rw [List.find?_cons_of_neg _ (by simpa using h)]
      exact hfind

/-- C4: `update_student` on a present id returns `True` and overwrites
exactly the four mutable fields of the rows with that id, preserving their
`id` and `created_at`, leaving every row with a different id untouched and
the table length unchanged; a subsequent `get_student_by_id` returns the
new values. -/
theorem update_existing_overwrites_exactly (db : DB) (sid : Nat)
    (name email phone : List Char) (age : Int)
    (r0 : Student) (hr0 : r0 ∈ db.rows) (hid : r0.id = sid) :
    (update_student sid name email phone age db none).val = true ∧
    ({ id := sid, name := name, email := email, phone := phone, age := age,
       created_at := r0.created_at } : Student) ∈
      (update_student sid name email phone age db none).db.rows ∧
    (∀ r ∈ db.rows, r.id ≠ sid → r ∈ (update_student sid name email phone age db none).db.rows) ∧
    (update_student sid name email phone age db none).db.rows.length = db.rows.length ∧
    (∀ r ∈ (update_student sid name email phone age db none).db.rows,
       r.id = sid → r.name = name ∧ r.email = email ∧ r.phone = phone ∧ r.age = age) ∧
    (get_student_by_id sid (update_student sid name email phone age db none).db none).val =
      some (sid, name, email, phone, age) := by
  have hrows : (update_student sid name email phone age db none).db.rows =
      db.rows.map (fun r =>
        if r.id = sid then
          { r with name := name, email := email, phone := phone, age := age }
        else r) := rfl
  refine ⟨rfl, ?_, ?_, ?_, ?_, ?_⟩
  · rw [hrows]
    refine List.mem_map.mpr ⟨r0, hr0, ?_⟩
    rw [if_pos hid, ← hid]
  · intro r hr hne
    rw [hrows]
    exact List.mem_map.mpr ⟨r, hr, by rw [if_neg hne]⟩
  · rw [hrows, List.length_map]
  · intro r hr he
    rw [hrows] at hr
    rcases List.mem_map.mp hr with ⟨r1, _, hmap⟩
    by_cases h1 : r1.id = sid
    · rw [if_pos h1] at hmap
      rw [← hmap]
      exact ⟨rfl, rfl, rfl, rfl⟩
    · rw [if_neg h1] at hmap
      rw [← hmap] at he
      exact absurd he h1
  · have hmem : sid ∈ db.rows.map Student.id := mem_map_id_of_mem hr0 hid
    rcases find?_after_update db.rows sid name email phone age hmem with
      ⟨r, hfind, hrid, hrn, hre, hrp, hra⟩
    simp only [get_student_by_id, hrows, hfind, Option.map_some']
    rw [projRecord, hrid, hrn, hre, hrp, hra]

theorem update_existing_overwrites_exactly_witness :
    (studentA ∈ dbTwo.rows ∧ studentA.id = 1) ∧
    ((update_student 1 ['Z'] ['z'] ['9'] 40 dbTwo none).val = true ∧
     ({ id := 1, name := ['Z'], email := ['z'], phone := ['9'], age := 40,
        created_at := studentA.created_at } : Student) ∈
       (update_student 1 ['Z'] ['z'] ['9'] 40 dbTwo none).db.rows ∧
     (∀ r ∈ dbTwo.rows, r.id ≠ 1 → r ∈ (update_student 1 ['Z'] ['z'] ['9'] 40 dbTwo none).db.rows) ∧
     (update_student 1 ['Z'] ['z'] ['9'] 40 dbTwo none).db.rows.length = dbTwo.rows.length ∧
     (∀ r ∈ (update_student 1 ['Z'] ['z'] ['9'] 40 dbTwo none).db.rows,
        r.id = 1 → r.name = ['Z'] ∧ r.email = ['z'] ∧ r.phone = ['9'] ∧ r.age = 40) ∧
     (get_student_by_id 1 (update_student 1 ['Z'] ['z'] ['9'] 40 dbTwo none).db none).val =
       some (1, ['Z'], ['z'], ['9'], (40 : Int))) :=
  ⟨⟨by decide, by decide⟩,
    update_existing_overwrites_exactly dbTwo 1 ['Z'] ['z'] ['9'] 40 studentA (by decide) (by decide)⟩

lemma digitChar_isDigit (n : Nat) (h : n < 10) : (Nat.digitChar n).isDigit = true := by
  interval_cases n <;> decide

lemma digitChar_toNat (n : Nat) (h : n < 10) : (Nat.digitChar n).toNat = n + 48 := by
  interval_cases n <;> decide

lemma natReprAux_ne_nil (fuel n : Nat) (h : n < fuel) : natReprAux fuel n ≠ [] := by
  cases fuel with
  | zero => omega
  | succ f =>
    simp only [natReprAux]
    by_cases h10 : n < 10
    · simp [h10]
    · simp [h10]

lemma natReprAux_digits (fuel : Nat) : ∀ n, n < fuel →
    ∀ c ∈ natReprAux fuel n, c.isDigit = true := by
  induction fuel with
  | zero => omega
  | succ f ih =>
    intro n h c hc
    simp only [natReprAux] at hc
    by_cases h10 : n < 10
    · rw [if_pos h10] at hc
      rw [List.mem_singleton.mp hc]
      exact digitChar_isDigit n h10
    · rw [if_neg h10] at hc
      rcases List.mem_append.mp hc with hc | hc
      · exact ih (n / 10) (by omega) c hc
      · rw [List.mem_singleton.mp hc]
        exact digitChar_isDigit _ (by omega)

lemma natRepr_ne_nil (n : Nat) : natRepr n ≠ [] :=
  natReprAux_ne_nil (n + 1) n (Nat.lt_succ_self n)

lemma natRepr_digits (n : Nat) : ∀ c ∈ natRepr n, c.isDigit = true :=
  natReprAux_digits (n + 1) n (Nat.lt_succ_self n)

lemma parseNatAux_nil (acc : Nat) : parseNatAux acc [] = some acc := rfl

lemma parseNatAux_cons (acc : Nat) (c : Char) (cs : List Char) :
    parseNatAux acc (c :: cs) =
      if c.isDigit then parseNatAux (acc * 10 + (c.toNat - 48)) cs else none := rfl

lemma parseInt_cons (c : Char) (cs : List Char) :
    parseInt (c :: cs) =
      if c = '-' then
        if cs.isEmpty then none
        else (parseNatAux 0 cs).map (fun n : Nat => -(n : Int))
      else (parseNatAux 0 (c :: cs)).map (fun n : Nat => (n : Int)) := rfl

lemma parseNatAux_append (xs ys : List Char) : ∀ acc : Nat,
    parseNatAux acc (xs ++ ys) =
      (parseNatAux acc xs).bind (fun a => parseNatAux a ys) := by
  induction xs with
  | nil => intro acc; rfl
  | cons c cs ih =>
    intro acc
    by_cases hc : c.isDigit = true
    · rw [List.cons_append, parseNatAux_cons, if_pos hc, ih,
        parseNatAux_cons, if_pos hc]
    · rw [List.cons_append, parseNatAux_cons, if_neg hc,
        parseNatAux_cons, if_neg hc]
      rfl

lemma natReprAux_parse (fuel : Nat) : ∀ n, n < fuel → ∀ acc : Nat,
    parseNatAux acc (natReprAux fuel n) =
      some (acc * 10 ^ (natReprAux fuel n).length + n) := by
  induction fuel with
  | zero => omega
  | succ f ih =>
    intro n h acc
    by_cases h10 : n < 10
    · have hd := digitChar_isDigit n h10
      have ht := digitChar_toNat n h10
      simp only [natReprAux, if_pos h10]
      rw [parseNatAux_cons, if_pos hd, parseNatAux_nil, ht]
      simp only [List.length_singleton, pow_one]
      congr 1
    · have hd := digitChar_isDigit (n % 10) (by omega)
      have ht := digitChar_toNat (n % 10) (by omega)
      simp only [natReprAux, if_neg h10]
      rw [parseNatAux_append, ih (n / 10) (by omega) acc, Option.some_bind]
      rw [parseNatAux_cons, if_pos hd, parseNatAux_nil, ht]
      simp only [List.length_append, List.length_singleton]
      congr 1
      have hdm : n / 10 * 10 + n % 10 = n := by omega
      have hm : n % 10 + 48 - 48 = n % 10 := by omega
      rw [hm, pow_succ]
      calc (acc * 10 ^ (natReprAux f (n / 10)).length + n / 10) * 10 + n % 10
          = acc * (10 ^ (natReprAux f (n / 10)).length * 10) +
              (n / 10 * 10 + n % 10) := by ring
        _ = acc * (10 ^ (natReprAux f (n / 10)).length * 10) + n := by rw [hdm]

lemma parseNat_natRepr (n : Nat) : parseNatAux 0 (natRepr n) = some n := by
  rw [natRepr, natReprAux_parse (n + 1) n (Nat.lt_succ_self n) 0]
  simp

lemma parseInt_intRepr (i : Int) : parseInt (intRepr i) = some i := by
  rw [intRepr]
  by_cases hneg : i < 0
  · rw [if_pos hneg, parseInt_cons, if_pos rfl,
      if_neg (by simp [natRepr_ne_nil]), parseNat_natRepr, Option.map_some']
    congr 1
    omega
  · rw [if_neg hneg]
    obtain ⟨c, cs, hcons⟩ := List.exists_cons_of_ne_nil (natRepr_ne_nil i.toNat)
    have hcdig : c.isDigit = true :=
      natRepr_digits i.toNat c (hcons ▸ List.mem_cons_self c cs)
    have hcne : ¬ c = '-' := by
      intro h
      rw [h] at hcdig
      exact absurd hcdig (by decide)
    rw [hcons, parseInt_cons, if_neg hcne, ← hcons, parseNat_natRepr, Option.map_some']
    congr 1
    omega

lemma intRepr_no_space (i : Int) : ∀ c ∈ intRepr i, c ≠ ' ' := by
  intro c hc
  rw [intRepr] at hc
  by_cases hneg : i < 0
  · rw [if_pos hneg] at hc
    rcases List.mem_cons.mp hc with rfl | hc
    · decide
    · have hd := natRepr_digits i.natAbs c hc
      intro he
      rw [he] at hd
      exact absurd hd (by decide)
  · rw [if_neg hneg] at hc
    have hd := natRepr_digits i.toNat c hc
    intro he
    rw [he] at hd
    exact absurd hd (by decide)

lemma splitFirst_no_space (xs ys : List Char) (hx : ∀ c ∈ xs, c ≠ ' ') :
    splitFirst sepIdName (xs ++ (sepIdName ++ ys)) = xs := by
  induction xs with
  | nil =>
    simp only [List.nil_append]
    show splitFirst sepIdName (' ' :: '-' :: ' ' :: ys) = []
    rw [splitFirst, if_pos]
    show List.isPrefixOf sepIdName (' ' :: '-' :: ' ' :: ys) = true
    simp [sepIdName, List.isPrefixOf]
  | cons c cs ih =>
    have hc : c ≠ ' ' := hx c (List.mem_cons_self c cs)
    simp only [List.cons_append]
    rw [splitFirst, if_neg]
    · rw [ih (fun d hd => hx d (List.mem_cons_of_mem c hd))]
    · simp [sepIdName, List.isPrefixOf, Ne.symm hc]

/-- C6: selector round-trip — for every integer id and every name, building
the display string `"<id> - <name>"`, splitting it on the first occurrence
of `" - "`, and parsing the leading token as an integer recovers exactly
the original id (the shared encoding of the Update and Delete views). -/
theorem selector_roundtrip (sid : Int) (name : List Char) :
    extractSelectedId (mkSelectorOption sid name) = some sid := by
  rw [extractSelectedId, mkSelectorOption, List.append_assoc,
    splitFirst_no_space (intRepr sid) name (intRepr_no_space sid),
    parseInt_intRepr]
